import Mathlib

/-!
# CRT post-process stage of `src/main.cpp`

A shallow embedding of the fragment shader `fragmentShaderSource`, of the
parameter globals with the "Reset to Defaults" action of `RenderControls`, and
of the diagnostics of `InitializeShaderSystem`.

GLSL `float` values are embedded as rationals; infinities and NaN are not
represented, and `x / 0` has the value `0`.  The builtins `mod`, `mix`,
`clamp`, `smoothstep`, `dot`, `abs` and `floor` follow their defining
equations in the GLSL 3.30 specification; `sin` and the texture lookup are
parameters of the embedding.

The contrast stage takes the rounding applied after each arithmetic operation
as an argument: `id` is exact arithmetic, which `main` uses like every other
stage, and `roundF32` is IEEE 754 binary32 rounding (to nearest, ties to
even), under which the properties of the contrast stage are stated.
-/

namespace CRT

/-! ## Vectors -/

/-- GLSL `vec2`. -/
structure Vec2 where
  x : ℚ
  y : ℚ
deriving DecidableEq

/-- GLSL `vec3`, with the colour accessors. -/
structure Vec3 where
  r : ℚ
  g : ℚ
  b : ℚ
deriving DecidableEq

/-- GLSL `vec4`, with the colour accessors. -/
structure Vec4 where
  r : ℚ
  g : ℚ
  b : ℚ
  a : ℚ
deriving DecidableEq

/-- Swizzle `.rgb`. -/
def Vec4.rgb (c : Vec4) : Vec3 := ⟨c.r, c.g, c.b⟩

/-- Assignment `col.rgb = v`: the alpha component is kept. -/
def Vec4.setRgb (c : Vec4) (v : Vec3) : Vec4 := ⟨v.r, v.g, v.b, c.a⟩

/-- Constructor `vec4(s)` with a single scalar. -/
def vec4 (s : ℚ) : Vec4 := ⟨s, s, s, s⟩

/-- Constructor `vec3(s)` with a single scalar. -/
def vec3 (s : ℚ) : Vec3 := ⟨s, s, s⟩

/-! ## Builtins -/

/-- GLSL `floor`. -/
def floor (x : ℚ) : ℚ := (⌊x⌋ : ℤ)

/-- GLSL `mod(x, y) = x - y * floor(x / y)`. -/
def mod (x y : ℚ) : ℚ := x - y * floor (x / y)

/-- GLSL `mix(x, y, a) = x * (1 - a) + y * a`. -/
def mix (x y a : ℚ) : ℚ := x * (1 - a) + y * a

/-- Componentwise `mix` of two `vec3` with a scalar weight. -/
def mix3 (x y : Vec3) (a : ℚ) : Vec3 := ⟨mix x.r y.r a, mix x.g y.g a, mix x.b y.b a⟩

/-- GLSL `clamp(x, lo, hi) = min(max(x, lo), hi)`. -/
def clamp (x lo hi : ℚ) : ℚ := min (max x lo) hi

/-- GLSL `smoothstep(edge0, edge1, x)`. -/
def smoothstep (edge0 edge1 x : ℚ) : ℚ :=
  let t := clamp ((x - edge0) / (edge1 - edge0)) 0 1
  t * t * (3 - 2 * t)

/-- GLSL `dot` on `vec3`. -/
def dot (p q : Vec3) : ℚ := p.r * q.r + p.g * q.g + p.b * q.b

/-! ## Binary32 rounding -/

/-- Rounding of a rational to the nearest integer, ties to the even one. -/
def roundNearestEven (q : ℚ) : ℤ :=
  if q - ⌊q⌋ < 1 / 2 then ⌊q⌋
  else if 1 / 2 < q - ⌊q⌋ then ⌊q⌋ + 1
  else if ⌊q⌋ % 2 = 0 then ⌊q⌋ else ⌊q⌋ + 1

/-- The binary32 exponent of `x`: `floor(log2 |x|)`, and `-126` for zero and for
the subnormal range. -/
def binade (x : ℚ) : ℤ := if x = 0 then -126 else max (Int.log 2 |x|) (-126)

/-- The binary32 value nearest to `x`, ties to even: `x` is rounded to a multiple
of `2 ^ (binade x - 23)`, the spacing of the 24-bit significands at its
exponent.  There is no overflow to infinity: the result is a binary32 value
for `|x| < 2 ^ 128`. -/
def roundF32 (x : ℚ) : ℚ :=
  roundNearestEven (x / 2 ^ (binade x - 23)) * 2 ^ (binade x - 23)

/-- GLSL `mix(x, y, a) = x * (1 - a) + y * a`, with the rounding `fl` applied
after each operation. -/
def mixWith (fl : ℚ → ℚ) (x y a : ℚ) : ℚ := fl (fl (x * fl (1 - a)) + fl (y * a))

/-- The parameters of the embedding: the builtin `sin` and the lookup
`texture(u_MainTex, ·)` of the bound texture. -/
structure Env where
  sin : ℚ → ℚ
  texture : Vec2 → Vec4

/-! ## Uniforms -/

/-- The uniforms declared by the fragment shader. -/
structure Uniforms where
  u_Curvature : ℚ
  u_VignetteWidth : ℚ
  u_Resolution : Vec2
  u_ChromaticAberration : ℚ
  u_Contrast : ℚ
  u_ColorBleed : ℚ
  u_Saturation : ℚ
  u_ScanlineIntensity : ℚ
  u_Warmth : ℚ
  u_InterlacingSeverity : ℚ
  u_TrackingHeight : ℚ
  u_TrackingSeverity : ℚ
  u_TrackingSpeed : ℚ
  u_ShimmerSpeed : ℚ
  u_RGBMaskSize : ℚ
  u_EnableRGBMask : Bool
  u_Time : ℚ

/-! ## Fragment shader, stage by stage -/

/-- The divisor of the warp offset, `u_Curvature * 12.0`. -/
def warpDivisor (u_Curvature : ℚ) : ℚ := u_Curvature * 12

/-- Screen curvature:
`curved_uv = uv * 2.0 - 1.0; offset = curved_uv.yx / (u_Curvature * 12.0);`
`curved_uv += curved_uv * offset * offset; curved_uv = curved_uv * 0.5 + 0.5`. -/
def curvedUV (u_Curvature : ℚ) (uv : Vec2) : Vec2 :=
  let c : Vec2 := ⟨uv.x * 2 - 1, uv.y * 2 - 1⟩
  let offset : Vec2 := ⟨c.y / warpDivisor u_Curvature, c.x / warpDivisor u_Curvature⟩
  let c : Vec2 := ⟨c.x + c.x * offset.x * offset.x, c.y + c.y * offset.y * offset.y⟩
  ⟨c.x * (1 / 2) + 1 / 2, c.y * (1 / 2) + 1 / 2⟩

/-- The test `curved_uv.x < 0.0 || curved_uv.x > 1.0 || curved_uv.y < 0.0 || curved_uv.y > 1.0`. -/
def outside (p : Vec2) : Bool :=
  decide (p.x < 0) || decide (p.x > 1) || decide (p.y < 0) || decide (p.y > 1)

/-- The pixel index of the RGB mask, after `pix = floor(pix)`. -/
def maskPix (env : Env) (u : Uniforms) (uv : Vec2) : ℚ :=
  let fragCoord : Vec2 := ⟨uv.x * u.u_Resolution.x, uv.y * u.u_Resolution.y⟩
  floor ((fragCoord.y + floor (env.sin (u.u_Time * u.u_ShimmerSpeed))) * u.u_Resolution.x
    + fragCoord.x)

/-- The divisor of the mask normalisation, `u_RGBMaskSize - 1.0`. -/
def maskDivisor (u_RGBMaskSize : ℚ) : ℚ := u_RGBMaskSize - 1

/-- RGB mask simulation: `colMask` after `colMask = colMask / (u_RGBMaskSize - 1.0) + 0.5`. -/
def colMask (env : Env) (u : Uniforms) (uv : Vec2) : Vec4 :=
  let pix := maskPix env u uv
  let m : Vec4 := ⟨mod pix u.u_RGBMaskSize, mod (pix + 1) u.u_RGBMaskSize,
    mod (pix + 2) u.u_RGBMaskSize, 1⟩
  ⟨m.r / maskDivisor u.u_RGBMaskSize + 1 / 2, m.g / maskDivisor u.u_RGBMaskSize + 1 / 2,
   m.b / maskDivisor u.u_RGBMaskSize + 1 / 2, m.a / maskDivisor u.u_RGBMaskSize + 1 / 2⟩

/-- The banding term `scan = mod(fragCoord.y, 3.0)`. -/
def scan (u : Uniforms) (uv : Vec2) : ℚ := mod (uv.y * u.u_Resolution.y) 3

/-- The scanline term
`sin(v_TexCoord.y * u_Resolution.y * 2.0) * u_ScanlineIntensity + (1.0 - u_ScanlineIntensity)`. -/
def scanline (env : Env) (u : Uniforms) (uv : Vec2) : ℚ :=
  env.sin (uv.y * u.u_Resolution.y * 2) * u.u_ScanlineIntensity + (1 - u.u_ScanlineIntensity)

/-- Texture sampling with the red and blue lookups shifted by the chromatic
aberration; green is read at the unwarped `uv`; `col.a = 1.0`. -/
def sample (env : Env) (u : Uniforms) (uv curved : Vec2) : Vec4 :=
  let red_uv : Vec2 := ⟨curved.x + u.u_ChromaticAberration, curved.y + 0⟩
  let blue_uv : Vec2 := ⟨curved.x - u.u_ChromaticAberration, curved.y - 0⟩
  ⟨(env.texture red_uv).r, (env.texture uv).g, (env.texture blue_uv).b, 1⟩

/-- The gated multiply `if(u_EnableRGBMask) { col *= colMask; }`. -/
def applyMask (enable : Bool) (col mask : Vec4) : Vec4 :=
  if enable then ⟨col.r * mask.r, col.g * mask.g, col.b * mask.b, col.a * mask.a⟩ else col

/-- One channel of `contrast = (col.rgb - 0.5) * u_Contrast + 0.5`, with the
rounding `fl` applied after each operation. -/
def contrastTerm (fl : ℚ → ℚ) (u_Contrast c : ℚ) : ℚ :=
  fl (fl (fl (c - 1 / 2) * u_Contrast) + 1 / 2)

/-- Contrast: `contrast = (col.rgb - 0.5) * u_Contrast + 0.5;`
`col.rgb = mix(col.rgb, contrast, 0.5)`, with the rounding `fl` applied after
each operation. -/
def contrastStage (fl : ℚ → ℚ) (u_Contrast : ℚ) (col : Vec4) : Vec4 :=
  let contrast : Vec3 := ⟨contrastTerm fl u_Contrast col.r, contrastTerm fl u_Contrast col.g,
    contrastTerm fl u_Contrast col.b⟩
  col.setRgb ⟨mixWith fl col.rgb.r contrast.r (1 / 2), mixWith fl col.rgb.g contrast.g (1 / 2),
    mixWith fl col.rgb.b contrast.b (1 / 2)⟩

/-- Colour bleeding: `col.r += bleed; col.b -= bleed`. -/
def bleedStage (env : Env) (u : Uniforms) (uv : Vec2) (col : Vec4) : Vec4 :=
  let bleed := env.sin (uv.y * u.u_Resolution.y * 2) * u.u_ColorBleed
  ⟨col.r + bleed, col.g, col.b - bleed, col.a⟩

/-- The luminance weights `vec3(0.2126, 0.7152, 0.0722)`. -/
def lumaWeights : Vec3 := ⟨2126 / 10000, 7152 / 10000, 722 / 10000⟩

/-- Saturation: `gray = vec3(dot(col.rgb, weights)); col.rgb = mix(gray, col.rgb, u_Saturation)`. -/
def saturationStage (u_Saturation : ℚ) (col : Vec4) : Vec4 :=
  let gray : Vec3 := vec3 (dot col.rgb lumaWeights)
  col.setRgb (mix3 gray col.rgb u_Saturation)

/-- The falloff distances `vignette = u_VignetteWidth / u_Resolution`. -/
def vignette (u : Uniforms) : Vec2 :=
  ⟨u.u_VignetteWidth / u.u_Resolution.x, u.u_VignetteWidth / u.u_Resolution.y⟩

/-- The product of the two smoothstep falloffs, from the curved coordinate. -/
def vignetteEffect (u : Uniforms) (curved : Vec2) : ℚ :=
  let centeredUV : Vec2 := ⟨curved.x * 2 - 1, curved.y * 2 - 1⟩
  smoothstep 0 (vignette u).x (1 - |centeredUV.x|) *
    smoothstep 0 (vignette u).y (1 - |centeredUV.y|)

/-- Scanlines and vignette, `col.rgb *= scanline * vignetteEffect * scan`. -/
def shadeStage (env : Env) (u : Uniforms) (uv curved : Vec2) (col : Vec4) : Vec4 :=
  let k := scanline env u uv * vignetteEffect u curved * scan u uv
  ⟨col.r * k, col.g * k, col.b * k, col.a⟩

/-- Warmth: `col.rgb *= vec3(u_Warmth, 1.0, 2.0 - u_Warmth)`. -/
def warmthStage (u_Warmth : ℚ) (col : Vec4) : Vec4 :=
  ⟨col.r * u_Warmth, col.g * 1, col.b * (2 - u_Warmth), col.a⟩

/-- The statements of `main` that follow the bounds check, with the mask
vector `colMask` as an argument. -/
def shadeWithMask (env : Env) (u : Uniforms) (uv : Vec2) (mask : Vec4) : Vec4 :=
  let curved := curvedUV u.u_Curvature uv
  let col := sample env u uv curved
  let col := applyMask u.u_EnableRGBMask col mask
  let col := contrastStage id u.u_Contrast col
  let col := bleedStage env u uv col
  let col := saturationStage u.u_Saturation col
  let col := shadeStage env u uv curved col
  warmthStage u.u_Warmth col

/-- The body of `main` with the mask vector as an argument: the bounds check
with its early `FragColor = vec4(0.0); return;`, then the remaining stages. -/
def mainWithMask (env : Env) (u : Uniforms) (uv : Vec2) (mask : Vec4) : Vec4 :=
  if outside (curvedUV u.u_Curvature uv) then vec4 0
  else shadeWithMask env u uv mask

/-- The fragment shader `main`: the value written to `FragColor` for the
interpolated texture coordinate `uv = v_TexCoord`. -/
def main (env : Env) (u : Uniforms) (uv : Vec2) : Vec4 :=
  mainWithMask env u uv (colMask env u uv)

/-! ## Parameter globals and controls -/

/-- The parameter globals of `main.cpp` (lines 138-151). -/
structure EffectParameters where
  curvatureValue : ℚ
  vignetteWidthValue : ℚ
  chromaticAberrationValue : ℚ
  contrastValue : ℚ
  colorBleedValue : ℚ
  saturationValue : ℚ
  scanlineIntensityValue : ℚ
  warmthValue : ℚ
  shimmerSpeed : ℚ
  rgbMaskSize : ℚ
  currentTime : ℚ
  enableRGBMask : Bool
deriving DecidableEq

/-- The initialisers of the parameter globals. -/
def initialParameters : EffectParameters where
  curvatureValue := 4
  vignetteWidthValue := 2
  chromaticAberrationValue := 0
  contrastValue := 1
  colorBleedValue := 0
  saturationValue := 1
  scanlineIntensityValue := 0
  warmthValue := 1
  shimmerSpeed := 30
  rgbMaskSize := 29 / 10
  currentTime := 0
  enableRGBMask := false

/-- The body of `if (ImGui::Button("Reset to Defaults"))` in `RenderControls`:
ten assignments; the globals it does not assign keep their value. -/
def resetToDefaults (p : EffectParameters) : EffectParameters :=
  { p with
    curvatureValue := 4
    vignetteWidthValue := 2
    chromaticAberrationValue := 0
    contrastValue := 1
    colorBleedValue := 0
    saturationValue := 1
    scanlineIntensityValue := 0
    warmthValue := 1
    shimmerSpeed := 30
    rgbMaskSize := 29 / 10 }

/-- The `[min, max]` arguments of the `ImGui::SliderFloat` calls of `RenderControls`. -/
def inSliderRanges (p : EffectParameters) : Prop :=
  (0 ≤ p.curvatureValue ∧ p.curvatureValue ≤ 10) ∧
  (0 ≤ p.vignetteWidthValue ∧ p.vignetteWidthValue ≤ 2) ∧
  (0 ≤ p.contrastValue ∧ p.contrastValue ≤ 3) ∧
  (0 ≤ p.saturationValue ∧ p.saturationValue ≤ 3) ∧
  (8 / 10 ≤ p.warmthValue ∧ p.warmthValue ≤ 12 / 10) ∧
  (0 ≤ p.scanlineIntensityValue ∧ p.scanlineIntensityValue ≤ 5 / 10) ∧
  (1 ≤ p.rgbMaskSize ∧ p.rgbMaskSize ≤ 4) ∧
  (0 ≤ p.shimmerSpeed ∧ p.shimmerSpeed ≤ 60) ∧
  (0 ≤ p.chromaticAberrationValue ∧ p.chromaticAberrationValue ≤ 1 / 100) ∧
  (0 ≤ p.colorBleedValue ∧ p.colorBleedValue ≤ 2 / 10)

/-- `UpdateShaderUniforms`: the clock advances by `1/144`, then every parameter
is uploaded together with the window size; the four uniforms the host never
sets hold their initial value `0`. -/
def UpdateShaderUniforms (p : EffectParameters) (width height : ℤ) :
    EffectParameters × Uniforms :=
  let p := { p with currentTime := p.currentTime + 1 / 144 }
  (p, { u_Curvature := p.curvatureValue
        u_VignetteWidth := p.vignetteWidthValue
        u_Resolution := ⟨width, height⟩
        u_ChromaticAberration := p.chromaticAberrationValue
        u_Contrast := p.contrastValue
        u_ColorBleed := p.colorBleedValue
        u_Saturation := p.saturationValue
        u_ScanlineIntensity := p.scanlineIntensityValue
        u_Warmth := p.warmthValue
        u_InterlacingSeverity := 0
        u_TrackingHeight := 0
        u_TrackingSeverity := 0
        u_TrackingSpeed := 0
        u_ShimmerSpeed := p.shimmerSpeed
        u_RGBMaskSize := p.rgbMaskSize
        u_EnableRGBMask := p.enableRGBMask
        u_Time := p.currentTime })

/-! ## Shader initialisation -/

/-- What the GL driver answers during `InitializeShaderSystem`: the compile
status and info log of each shader object, the link status and info log of the
program object. -/
structure ShaderBuild where
  vertexCompileStatus : Bool
  vertexInfoLog : String
  fragmentCompileStatus : Bool
  fragmentInfoLog : String
  linkStatus : Bool
  programInfoLog : String

/-- The text `InitializeShaderSystem` prints, one entry per `printf`: it reads
`GL_COMPILE_STATUS` of `vertexShader` only, and on failure prints the info log
(read into `GLchar infoLog[512]`, so at most 511 characters). -/
def InitializeShaderSystem (gl : ShaderBuild) : List String :=
  if !gl.vertexCompileStatus then
    ["Vertex shader compilation failed: " ++ gl.vertexInfoLog.take 511 ++ "\n"]
  else []

/-! ## Sample inputs -/

/-- A sample environment: `sin` is the constant `0` (exact at the argument
`0`) and the texture is pure white. -/
def whiteEnv : Env := ⟨fun _ => 0, fun _ => ⟨1, 1, 1, 1⟩⟩

/-- The uniforms of the start-up parameters in a 1280x720 window at time `0`. -/
def startUniforms : Uniforms :=
  { (UpdateShaderUniforms initialParameters 1280 720).2 with u_Time := 0 }

/-- A driver answer in which the vertex shader compiles, the fragment shader
does not, and the link fails in consequence. -/
def fragmentFailure : ShaderBuild where
  vertexCompileStatus := true
  vertexInfoLog := ""
  fragmentCompileStatus := false
  fragmentInfoLog := "0:62(5): error: syntax error, unexpected IDENTIFIER"
  linkStatus := false
  programInfoLog := "error: linking with uncompiled shader"

/-- The parameters after the user has ticked "Enable RGB Mask" at start-up. -/
def maskTicked : EffectParameters := { initialParameters with enableRGBMask := true }

/-- The parameters with curvature, vignette width and mask size at the lower
end of their sliders. -/
def sliderMinima : EffectParameters :=
  { initialParameters with curvatureValue := 0, vignetteWidthValue := 0, rgbMaskSize := 1 }

/-- The binary32 value of the 8-bit texel `51/255`, `0x1.99999ap-3`. -/
def texel51 : ℚ := 13421773 / 67108864

/-! ## Evaluation lemmas -/

theorem floor_eq_of_le_of_lt (x : ℚ) (n : ℤ) (h₁ : (n : ℚ) ≤ x) (h₂ : x < n + 1) :
    floor x = n := by
  unfold floor
  exact_mod_cast Int.floor_eq_iff.mpr ⟨h₁, h₂⟩

theorem outside_eq_true_iff (p : Vec2) :
    outside p = true ↔ p.x < 0 ∨ p.x > 1 ∨ p.y < 0 ∨ p.y > 1 := by
  simp [outside, or_assoc]

theorem outside_eq_false_iff (p : Vec2) :
    outside p = false ↔ (0 ≤ p.x ∧ p.x ≤ 1) ∧ (0 ≤ p.y ∧ p.y ≤ 1) := by
  rw [← Bool.not_eq_true, outside_eq_true_iff]
  simp only [not_or, not_lt, gt_iff_lt, and_assoc]

/-! ## The bounds check -/

/-- C1: whenever the curvature-warped coordinate has `x < 0`, `x > 1`, `y < 0`
or `y > 1`, the fragment output is exactly `(0,0,0,0)`; hence it is the same
for every texture, every `sin`, and every uniform assignment that has the
same curvature. -/
theorem main_outside (env : Env) (u : Uniforms) (uv : Vec2)
    (h : (curvedUV u.u_Curvature uv).x < 0 ∨ (curvedUV u.u_Curvature uv).x > 1 ∨
      (curvedUV u.u_Curvature uv).y < 0 ∨ (curvedUV u.u_Curvature uv).y > 1) :
    main env u uv = ⟨0, 0, 0, 0⟩ ∧
      ∀ (env' : Env) (u' : Uniforms), u'.u_Curvature = u.u_Curvature →
        main env' u' uv = main env u uv := by
  have key : ∀ (e : Env) (w : Uniforms), w.u_Curvature = u.u_Curvature →
      main e w uv = ⟨0, 0, 0, 0⟩ := by
    intro e w hw
    have ho : outside (curvedUV w.u_Curvature uv) = true := by
      rw [hw]; exact (outside_eq_true_iff _).mpr h
    simp [main, mainWithMask, ho, vec4]
  refine ⟨key env u rfl, ?_⟩
  intro env' u' hu'
  rw [key env' u' hu', key env u rfl]

/-- Witness of C1: at curvature 4 the corner `uv = (0,0)` warps to `x = -1/4608 < 0`
and the output there is `(0,0,0,0)`. -/
theorem main_outside_witness :
    (curvedUV startUniforms.u_Curvature ⟨0, 0⟩).x = -1 / 4608 ∧
      main whiteEnv startUniforms ⟨0, 0⟩ = ⟨0, 0, 0, 0⟩ :=
  ⟨by norm_num [curvedUV, warpDivisor, startUniforms, UpdateShaderUniforms, initialParameters],
   (main_outside whiteEnv startUniforms ⟨0, 0⟩ (Or.inl (by
      norm_num [curvedUV, warpDivisor, startUniforms, UpdateShaderUniforms,
        initialParameters]))).1⟩

/-! ## The saturation stage -/

/-- C2: the saturation stage with `saturation = 1` returns the colour unchanged,
and with `saturation = 0` returns the colour whose three channels all equal
`0.2126*r + 0.7152*g + 0.0722*b` (alpha is kept). -/
theorem saturationStage_one_and_zero (c : Vec4) :
    saturationStage 1 c = c ∧
      saturationStage 0 c =
        ⟨0.2126 * c.r + 0.7152 * c.g + 0.0722 * c.b,
         0.2126 * c.r + 0.7152 * c.g + 0.0722 * c.b,
         0.2126 * c.r + 0.7152 * c.g + 0.0722 * c.b, c.a⟩ := by
  constructor
  · simp [saturationStage, Vec4.setRgb, Vec4.rgb, mix3, mix]
  · simp only [saturationStage, Vec4.setRgb, Vec4.rgb, mix3, mix, vec3, dot, lumaWeights,
      Vec4.mk.injEq]
    refine ⟨?_, ?_, ?_, trivial⟩ <;> norm_num <;> ring

/-! ## Binary32 rounding lemmas -/

theorem abs_roundNearestEven_sub_le (q : ℚ) : |(roundNearestEven q : ℚ) - q| ≤ 1 / 2 := by
  have h1 := Int.floor_le q
  have h2 := Int.lt_floor_add_one q
  unfold roundNearestEven
  split_ifs <;> push_cast <;> rw [abs_le] <;> constructor <;> linarith

theorem roundNearestEven_intCast (n : ℤ) : roundNearestEven (n : ℚ) = n := by
  unfold roundNearestEven
  simp

theorem roundNearestEven_eq (q : ℚ) (n : ℤ)
    (h : |q - n| < 1 / 2 ∨ (|q - n| = 1 / 2 ∧ n % 2 = 0)) : roundNearestEven q = n := by
  have h1 := Int.floor_le q
  have h2 := Int.lt_floor_add_one q
  have hlo : (n : ℚ) - 1 / 2 ≤ q := by
    rcases h with h | ⟨h, _⟩
    · have := (abs_lt.mp h).1
      linarith
    · have := (abs_le.mp h.le).1
      linarith
  have hhi : q ≤ (n : ℚ) + 1 / 2 := by
    rcases h with h | ⟨h, _⟩
    · have := (abs_lt.mp h).2
      linarith
    · have := (abs_le.mp h.le).2
      linarith
  have hf1 : ⌊q⌋ ≤ n := by
    have : ((⌊q⌋ : ℤ) : ℚ) < ((n + 1 : ℤ) : ℚ) := by push_cast; linarith
    have := Int.cast_lt.mp this
    omega
  have hf2 : n - 1 ≤ ⌊q⌋ := by
    have : ((n - 2 : ℤ) : ℚ) < ((⌊q⌋ : ℤ) : ℚ) := by push_cast; linarith
    have := Int.cast_lt.mp this
    omega
  rcases (by omega : ⌊q⌋ = n ∨ ⌊q⌋ = n - 1) with hf | hf
  · unfold roundNearestEven
    rw [hf] at h1 h2 ⊢
    split_ifs with a b c
    · rfl
    · exfalso; linarith
    · rfl
    · exfalso
      have hq : q - n = 1 / 2 := by linarith
      rcases h with h | ⟨_, h⟩
      · have := (abs_lt.mp h).2
        linarith
      · exact c h
  · unfold roundNearestEven
    rw [hf] at h1 h2 ⊢
    push_cast at h1 h2 ⊢
    split_ifs with a b c
    · exfalso
      rcases h with h | ⟨h, _⟩
      · have := (abs_lt.mp h).1
        linarith
      · have := (abs_le.mp h.le).1
        linarith
    · ring
    · exfalso
      have hq : q - n = -(1 / 2) := by linarith
      rcases h with h | ⟨_, h⟩
      · have := (abs_lt.mp h).1
        linarith
      · omega
    · ring

theorem binade_ge (x : ℚ) : -126 ≤ binade x := by
  unfold binade
  split_ifs
  · exact le_refl _
  · exact le_max_right _ _

theorem binade_le_of_abs_lt (x : ℚ) (e : ℤ) (he : -126 ≤ e) (hx : |x| < 2 ^ (e + 1)) :
    binade x ≤ e := by
  unfold binade
  split_ifs with h0
  · exact he
  · refine max_le ?_ he
    have hpos : 0 < |x| := abs_pos.mpr h0
    have := (Int.lt_zpow_iff_log_lt (b := 2) (by norm_num) hpos (x := e + 1)).mp
      (by simpa using hx)
    omega

theorem le_binade_of_le_abs (x : ℚ) (e : ℤ) (hx : 2 ^ e ≤ |x|) : e ≤ binade x := by
  have hpos : 0 < |x| := lt_of_lt_of_le (by positivity) hx
  have h0 : x ≠ 0 := abs_pos.mp hpos
  unfold binade
  rw [if_neg h0]
  refine le_trans ?_ (le_max_left _ _)
  exact (Int.zpow_le_iff_le_log (b := 2) (by norm_num) hpos (x := e)).mp (by simpa using hx)

theorem roundF32_zero : roundF32 0 = 0 := by
  simp [roundF32, roundNearestEven]

theorem abs_roundF32_sub_le (x : ℚ) : |roundF32 x - x| ≤ 2 ^ (binade x - 24) := by
  have hu : (0 : ℚ) < 2 ^ (binade x - 23) := by positivity
  have h := abs_roundNearestEven_sub_le (x / 2 ^ (binade x - 23))
  have e : roundF32 x - x =
      ((roundNearestEven (x / 2 ^ (binade x - 23)) : ℚ) - x / 2 ^ (binade x - 23)) *
        2 ^ (binade x - 23) := by
    unfold roundF32
    field_simp
  rw [e, abs_mul, abs_of_pos hu]
  have hs : (2 : ℚ) ^ (binade x - 24) = 1 / 2 * 2 ^ (binade x - 23) := by
    rw [show binade x - 23 = (binade x - 24) + 1 by ring, zpow_add_one₀ (by norm_num)]
    ring
  rw [hs]
  exact mul_le_mul_of_nonneg_right h hu.le

theorem abs_roundF32_sub_le_of_lt (x : ℚ) (e : ℤ) (he : -126 ≤ e) (hx : |x| < 2 ^ (e + 1)) :
    |roundF32 x - x| ≤ 2 ^ (e - 24) := by
  refine le_trans (abs_roundF32_sub_le x) ?_
  have := binade_le_of_abs_lt x e he hx
  exact zpow_le_zpow_right₀ (by norm_num) (by omega)

theorem roundF32_of_grid_lt (x : ℚ) (n j : ℤ) (hj : -149 ≤ j) (hx : x = n * 2 ^ j)
    (hb : |x| < 2 ^ (j + 24)) : roundF32 x = x := by
  have hbin : binade x ≤ j + 23 := binade_le_of_abs_lt x (j + 23) (by omega) (by
    rw [show j + 23 + 1 = j + 24 by ring]; exact hb)
  obtain ⟨d, hd⟩ : ∃ d : ℕ, (d : ℤ) = j + 23 - binade x := ⟨(j + 23 - binade x).toNat, by omega⟩
  have key : ∀ b : ℤ, (d : ℤ) = j + 23 - b → x / 2 ^ (b - 23) = ((n * 2 ^ d : ℤ) : ℚ) := by
    intro b hb
    rw [hx, mul_div_assoc, ← zpow_sub₀ (by norm_num)]
    rw [show j - (b - 23) = (d : ℤ) by omega, zpow_natCast]
    push_cast
    ring
  have hq := key (binade x) hd
  unfold roundF32
  rw [hq, roundNearestEven_intCast, ← hq]
  field_simp

theorem roundF32_of_grid (x : ℚ) (n j : ℤ) (hj : -149 ≤ j) (hx : x = n * 2 ^ j)
    (hb : |x| ≤ 2 ^ (j + 24)) : roundF32 x = x := by
  rcases lt_or_eq_of_le hb with h | h
  · exact roundF32_of_grid_lt x n j hj hx h
  · have hlt : (2 : ℚ) ^ (j + 24) < 2 ^ (j + 24 + 24) :=
      zpow_lt_zpow_right₀ (by norm_num) (by omega)
    rcases abs_cases x with ⟨ha, _⟩ | ⟨ha, _⟩
    · exact roundF32_of_grid_lt x 1 (j + 24) (by omega) (by rw [← ha, h]; simp) (by rw [h]; exact hlt)
    · exact roundF32_of_grid_lt x (-1) (j + 24) (by omega)
        (by rw [← h, ha]; simp) (by rw [h]; exact hlt)

theorem exists_grid_of_roundF32_eq (c : ℚ) (e : ℤ) (hc : roundF32 c = c) (hlo : 2 ^ e ≤ |c|) :
    ∃ n : ℤ, c = n * 2 ^ (e - 23) := by
  have hb := le_binade_of_le_abs c e hlo
  obtain ⟨d, hd⟩ : ∃ d : ℕ, (d : ℤ) = binade c - e := ⟨(binade c - e).toNat, by omega⟩
  refine ⟨roundNearestEven (c / 2 ^ (binade c - 23)) * 2 ^ d, ?_⟩
  have hs : (2 : ℚ) ^ (binade c - 23) = 2 ^ d * 2 ^ (e - 23) := by
    rw [← zpow_natCast, ← zpow_add₀ (by norm_num)]
    congr 1
    omega
  conv_lhs => rw [← hc]
  unfold roundF32
  rw [hs]
  push_cast
  ring


theorem abs_lt_zpow_binade_succ (x : ℚ) : |x| < 2 ^ (binade x + 1) := by
  unfold binade
  split_ifs with h0
  · rw [h0]
    simp
    positivity
  · have h := Int.lt_zpow_succ_log_self (b := 2) (by norm_num) |x|
    refine lt_of_lt_of_le (by simpa using h) ?_
    exact zpow_le_zpow_right₀ (by norm_num) (by
      have := le_max_left (Int.log 2 |x|) (-126)
      omega)

theorem roundF32_idem (x : ℚ) : roundF32 (roundF32 x) = roundF32 x := by
  have hu : (0 : ℚ) < 2 ^ (binade x - 23) := by positivity
  have hq : |x / 2 ^ (binade x - 23)| < 2 ^ (24 : ℤ) := by
    rw [abs_div, abs_of_pos hu, div_lt_iff₀ hu, ← zpow_add₀ (by norm_num)]
    rw [show (24 : ℤ) + (binade x - 23) = binade x + 1 by ring]
    exact abs_lt_zpow_binade_succ x
  have hN : |(roundNearestEven (x / 2 ^ (binade x - 23)) : ℚ)| ≤ 2 ^ (24 : ℤ) := by
    have h := abs_roundNearestEven_sub_le (x / 2 ^ (binade x - 23))
    have h1 : |(roundNearestEven (x / 2 ^ (binade x - 23)) : ℚ)| < 2 ^ (24 : ℤ) + 1 := by
      have := abs_sub_abs_le_abs_sub (roundNearestEven (x / 2 ^ (binade x - 23)) : ℚ)
        (x / 2 ^ (binade x - 23))
      linarith
    have h2 : |roundNearestEven (x / 2 ^ (binade x - 23))| < (2 : ℤ) ^ 24 + 1 := by
      have : ((|roundNearestEven (x / 2 ^ (binade x - 23))| : ℤ) : ℚ) <
          (((2 : ℤ) ^ 24 + 1 : ℤ) : ℚ) := by
        push_cast
        norm_num at h1 ⊢
        exact h1
      exact Int.cast_lt.mp this
    have h3 : |roundNearestEven (x / 2 ^ (binade x - 23))| ≤ (2 : ℤ) ^ 24 := by omega
    have : ((|roundNearestEven (x / 2 ^ (binade x - 23))| : ℤ) : ℚ) ≤ (((2 : ℤ) ^ 24 : ℤ) : ℚ) :=
      Int.cast_le.mpr h3
    push_cast at this
    norm_num at this ⊢
    exact this
  refine roundF32_of_grid (roundF32 x) (roundNearestEven (x / 2 ^ (binade x - 23)))
    (binade x - 23) (by have := binade_ge x; omega) rfl ?_
  unfold roundF32
  rw [abs_mul, abs_of_pos hu, show binade x - 23 + 24 = 24 + (binade x - 23) by ring,
    zpow_add₀ (by norm_num)]
  exact mul_le_mul_of_nonneg_right hN hu.le

theorem roundF32_half (y : ℚ) (hy : roundF32 y = y) (h : y = 0 ∨ 2 ^ (-125 : ℤ) ≤ |y|) :
    roundF32 (y * (1 / 2)) = y * (1 / 2) := by
  rcases h with h | h
  · rw [h]
    simp [roundF32_zero]
  · have hb := le_binade_of_le_abs y (-125) h
    have hlt := abs_lt_zpow_binade_succ y
    refine roundF32_of_grid_lt (y * (1 / 2)) (roundNearestEven (y / 2 ^ (binade y - 23)))
      (binade y - 24) (by omega) ?_ ?_
    · conv_lhs => rw [← hy]
      unfold roundF32
      rw [show binade y - 23 = (binade y - 24) + 1 by ring, zpow_add_one₀ (by norm_num)]
      ring
    · rw [show binade y - 24 + 24 = binade y by ring]
      rw [zpow_add_one₀ (by norm_num)] at hlt
      rw [abs_mul, abs_of_pos (by norm_num : (0 : ℚ) < 1 / 2)]
      linarith

theorem roundF32_one_half : roundF32 (1 / 2) = 1 / 2 :=
  roundF32_of_grid (1 / 2) 1 (-1) (by norm_num) (by norm_num) (by
    rw [abs_of_pos (by norm_num)]; norm_num)

theorem mixWith_half_eq (c raw : ℚ) (hc : roundF32 c = c) (hraw : roundF32 raw = raw)
    (hc0 : c = 0 ∨ 2 ^ (-125 : ℤ) ≤ |c|) (hr0 : raw = 0 ∨ 2 ^ (-125 : ℤ) ≤ |raw|) :
    mixWith roundF32 c raw (1 / 2) = roundF32 ((c + raw) / 2) := by
  unfold mixWith
  rw [show (1 : ℚ) - 1 / 2 = 1 / 2 by norm_num, roundF32_one_half, roundF32_half c hc hc0,
    roundF32_half raw hraw hr0]
  congr 1
  ring

theorem contrast_one_channel (c : ℚ) (hc : roundF32 c = c) (h1 : 1 / 4 ≤ c) (h2 : c ≤ 1) :
    mixWith roundF32 c (contrastTerm roundF32 1 c) (1 / 2) = c := by
  obtain ⟨n, hn⟩ := exists_grid_of_roundF32_eq c (-2) hc (by
    rw [abs_of_nonneg (by linarith)]; norm_num; linarith)
  norm_num at hn
  have t1 : roundF32 (c - 1 / 2) = c - 1 / 2 :=
    roundF32_of_grid _ (n - 16777216) (-25) (by norm_num) (by rw [hn]; push_cast; norm_num; ring)
      (by rw [abs_le]; norm_num; constructor <;> linarith)
  have hh : roundF32 (c * (1 / 2)) = c * (1 / 2) :=
    roundF32_half c hc (Or.inr (by
      rw [abs_of_nonneg (by linarith)]
      refine le_trans ?_ h1
      norm_num))
  unfold mixWith contrastTerm
  rw [t1, mul_one, t1, sub_add_cancel, hc, show (1 : ℚ) - 1 / 2 = 1 / 2 by norm_num,
    roundF32_one_half, hh, show c * (1 / 2) + c * (1 / 2) = c by ring, hc]


theorem abs_roundF32_sub_le_of_lt_one (x : ℚ) (h : |x| < 1) :
    |roundF32 x - x| ≤ 1 / 33554432 := by
  have := abs_roundF32_sub_le_of_lt x (-1) (by norm_num) (by norm_num; exact h)
  norm_num at this
  exact this

theorem abs_roundF32_sub_le_of_lt_two (x : ℚ) (h : |x| < 2) :
    |roundF32 x - x| ≤ 1 / 16777216 := by
  have := abs_roundF32_sub_le_of_lt x 0 (by norm_num) (by norm_num; exact h)
  norm_num at this
  exact this

theorem abs_roundF32_sub_le_of_lt_four (x : ℚ) (h : |x| < 4) :
    |roundF32 x - x| ≤ 1 / 8388608 := by
  have := abs_roundF32_sub_le_of_lt x 1 (by norm_num) (by norm_num; exact h)
  norm_num at this
  exact this

theorem contrast_three_error (c : ℚ) (h0 : 0 ≤ c) (h1 : c ≤ 1) :
    |contrastTerm roundF32 3 c - (3 * c - 1)| ≤ 9 / 33554432 ∧
      |mixWith roundF32 c (contrastTerm roundF32 3 c) (1 / 2) -
          (c + contrastTerm roundF32 3 c) / 2| ≤ 5 / 33554432 := by
  have e1 := abs_le.mp (abs_roundF32_sub_le_of_lt_one (c - 1 / 2)
    (by rw [abs_lt]; constructor <;> linarith))
  have e2 := abs_le.mp (abs_roundF32_sub_le_of_lt_two (roundF32 (c - 1 / 2) * 3)
    (by rw [abs_lt]; constructor <;> linarith [e1.1, e1.2]))
  have e3 := abs_le.mp (abs_roundF32_sub_le_of_lt_four (roundF32 (roundF32 (c - 1 / 2) * 3) + 1 / 2)
    (by rw [abs_lt]; constructor <;> linarith [e1.1, e1.2, e2.1, e2.2]))
  have e4 := abs_le.mp (abs_roundF32_sub_le_of_lt_one (c * (1 / 2))
    (by rw [abs_lt]; constructor <;> linarith))
  have e5 := abs_le.mp (abs_roundF32_sub_le_of_lt_two (contrastTerm roundF32 3 c * (1 / 2))
    (by
      unfold contrastTerm
      rw [abs_lt]; constructor <;> linarith [e1.1, e1.2, e2.1, e2.2, e3.1, e3.2]))
  have e6 := abs_le.mp (abs_roundF32_sub_le_of_lt_two
    (roundF32 (c * (1 / 2)) + roundF32 (contrastTerm roundF32 3 c * (1 / 2)))
    (by
      unfold contrastTerm at e5 ⊢
      rw [abs_lt]
      constructor <;>
        linarith [e1.1, e1.2, e2.1, e2.2, e3.1, e3.2, e4.1, e4.2, e5.1, e5.2]))
  unfold mixWith
  rw [show (1 : ℚ) - 1 / 2 = 1 / 2 by norm_num, roundF32_one_half]
  unfold contrastTerm at e5 e6 ⊢
  constructor
  · rw [abs_le]
    constructor <;> linarith [e1.1, e1.2, e2.1, e2.2, e3.1, e3.2]
  · rw [abs_le]
    constructor <;> linarith [e4.1, e4.2, e5.1, e5.2, e6.1, e6.2]

theorem contrast_three_exact (c : ℚ) (hc : roundF32 c = c) (h1 : 1 / 3 ≤ c) (h2 : c ≤ 2 / 3) :
    contrastTerm roundF32 3 c = 3 * c - 1 ∧
      mixWith roundF32 c (contrastTerm roundF32 3 c) (1 / 2) = 2 * c - 1 / 2 := by
  have a4 : roundF32 (c * (1 / 2)) = c * (1 / 2) :=
    roundF32_half c hc (Or.inr (by
      rw [abs_of_nonneg (by linarith)]
      refine le_trans ?_ h1
      norm_num))
  rcases lt_or_le c (1 / 2) with hlt | hge
  · obtain ⟨n, hn⟩ := exists_grid_of_roundF32_eq c (-2) hc (by
      rw [abs_of_nonneg (by linarith)]; norm_num; linarith)
    norm_num at hn
    have a1 : roundF32 (c - 1 / 2) = c - 1 / 2 :=
      roundF32_of_grid _ (n - 16777216) (-25) (by norm_num)
        (by rw [hn]; push_cast; norm_num; ring)
        (by rw [abs_le]; norm_num; constructor <;> linarith)
    have a2 : roundF32 ((c - 1 / 2) * 3) = (c - 1 / 2) * 3 :=
      roundF32_of_grid _ (3 * n - 50331648) (-25) (by norm_num)
        (by rw [hn]; push_cast; norm_num; ring)
        (by rw [abs_le]; norm_num; constructor <;> linarith)
    have a3 : roundF32 ((c - 1 / 2) * 3 + 1 / 2) = (c - 1 / 2) * 3 + 1 / 2 :=
      roundF32_of_grid _ (3 * n - 33554432) (-25) (by norm_num)
        (by rw [hn]; push_cast; norm_num; ring)
        (by rw [abs_le]; norm_num; constructor <;> linarith)
    have a5 : roundF32 (((c - 1 / 2) * 3 + 1 / 2) * (1 / 2)) = ((c - 1 / 2) * 3 + 1 / 2) * (1 / 2) :=
      roundF32_of_grid _ (3 * n - 33554432) (-26) (by norm_num)
        (by rw [hn]; push_cast; norm_num; ring)
        (by rw [abs_le]; norm_num; constructor <;> linarith)
    have a6 : roundF32 (c * (1 / 2) + ((c - 1 / 2) * 3 + 1 / 2) * (1 / 2)) =
        c * (1 / 2) + ((c - 1 / 2) * 3 + 1 / 2) * (1 / 2) :=
      roundF32_of_grid _ (2 * n - 16777216) (-25) (by norm_num)
        (by rw [hn]; push_cast; norm_num; ring)
        (by rw [abs_le]; norm_num; constructor <;> linarith)
    unfold mixWith contrastTerm
    rw [a1, a2, a3, show (1 : ℚ) - 1 / 2 = 1 / 2 by norm_num, roundF32_one_half, a4, a5, a6]
    constructor <;> ring
  · obtain ⟨n, hn⟩ := exists_grid_of_roundF32_eq c (-1) hc (by
      rw [abs_of_nonneg (by linarith)]; norm_num; linarith)
    norm_num at hn
    have a1 : roundF32 (c - 1 / 2) = c - 1 / 2 :=
      roundF32_of_grid _ (n - 8388608) (-24) (by norm_num)
        (by rw [hn]; push_cast; norm_num; ring)
        (by rw [abs_le]; norm_num; constructor <;> linarith)
    have a2 : roundF32 ((c - 1 / 2) * 3) = (c - 1 / 2) * 3 :=
      roundF32_of_grid _ (3 * n - 25165824) (-24) (by norm_num)
        (by rw [hn]; push_cast; norm_num; ring)
        (by rw [abs_le]; norm_num; constructor <;> linarith)
    have a3 : roundF32 ((c - 1 / 2) * 3 + 1 / 2) = (c - 1 / 2) * 3 + 1 / 2 :=
      roundF32_of_grid _ (3 * n - 16777216) (-24) (by norm_num)
        (by rw [hn]; push_cast; norm_num; ring)
        (by rw [abs_le]; norm_num; constructor <;> linarith)
    have a5 : roundF32 (((c - 1 / 2) * 3 + 1 / 2) * (1 / 2)) = ((c - 1 / 2) * 3 + 1 / 2) * (1 / 2) :=
      roundF32_of_grid _ (3 * n - 16777216) (-25) (by norm_num)
        (by rw [hn]; push_cast; norm_num; ring)
        (by rw [abs_le]; norm_num; constructor <;> linarith)
    have a6 : roundF32 (c * (1 / 2) + ((c - 1 / 2) * 3 + 1 / 2) * (1 / 2)) =
        c * (1 / 2) + ((c - 1 / 2) * 3 + 1 / 2) * (1 / 2) :=
      roundF32_of_grid _ (2 * n - 8388608) (-24) (by norm_num)
        (by rw [hn]; push_cast; norm_num; ring)
        (by rw [abs_le]; norm_num; constructor <;> linarith)
    unfold mixWith contrastTerm
    rw [a1, a2, a3, show (1 : ℚ) - 1 / 2 = 1 / 2 by norm_num, roundF32_one_half, a4, a5, a6]
    constructor <;> ring

theorem contrast_three_ne (c : ℚ) (hc : roundF32 c = c) (h0 : 0 ≤ c) (h1 : c ≤ 1)
    (hne : c ≠ 1 / 2) :
    mixWith roundF32 c (contrastTerm roundF32 3 c) (1 / 2) ≠ contrastTerm roundF32 3 c := by
  intro h
  by_cases hmid : 1 / 3 ≤ c ∧ c ≤ 2 / 3
  · obtain ⟨ht, hm⟩ := contrast_three_exact c hc hmid.1 hmid.2
    rw [hm, ht] at h
    apply hne
    linarith
  · obtain ⟨ea, eb⟩ := contrast_three_error c h0 h1
    rw [h] at eb
    have ea' := abs_le.mp ea
    have eb' := abs_le.mp eb
    rcases not_and_or.mp hmid with hh | hh
    · have : c < 1 / 3 := not_le.mp hh
      linarith [ea'.1, ea'.2, eb'.1, eb'.2]
    · have : 2 / 3 < c := not_le.mp hh
      linarith [ea'.1, ea'.2, eb'.1, eb'.2]

theorem contrast_three_near (c : ℚ) (h0 : 0 ≤ c) (h1 : c ≤ 1) :
    |mixWith roundF32 c (contrastTerm roundF32 3 c) (1 / 2) - (2 * c - 1 / 2)| ≤ 1 / 2097152 := by
  obtain ⟨ea, eb⟩ := contrast_three_error c h0 h1
  have ea' := abs_le.mp ea
  have eb' := abs_le.mp eb
  rw [abs_le]
  constructor <;> linarith [ea'.1, ea'.2, eb'.1, eb'.2]


theorem binade_eq (x : ℚ) (e : ℤ) (he : -126 ≤ e) (hlo : 2 ^ e ≤ |x|) (hhi : |x| < 2 ^ (e + 1)) :
    binade x = e :=
  le_antisymm (binade_le_of_abs_lt x e he hhi) (le_binade_of_le_abs x e hlo)

theorem roundF32_eq_of_binade (x : ℚ) (e n : ℤ) (he : -126 ≤ e) (hlo : 2 ^ e ≤ |x|)
    (hhi : |x| < 2 ^ (e + 1))
    (hn : |x / 2 ^ (e - 23) - n| < 1 / 2 ∨ (|x / 2 ^ (e - 23) - n| = 1 / 2 ∧ n % 2 = 0)) :
    roundF32 x = n * 2 ^ (e - 23) := by
  unfold roundF32
  rw [binade_eq x e he hlo hhi, roundNearestEven_eq _ n hn]

theorem roundF32_texel51 : roundF32 (51 / 255) = texel51 := by
  rw [roundF32_eq_of_binade (51 / 255) (-3) 13421773 (by norm_num)
    (by rw [abs_of_pos (by norm_num)]; norm_num)
    (by rw [abs_of_pos (by norm_num)]; norm_num)
    (Or.inl (by rw [abs_lt]; norm_num))]
  norm_num [texel51]

theorem contrast_one_texel51 :
    mixWith roundF32 texel51 (contrastTerm roundF32 1 texel51) (1 / 2) = 3355443 / 16777216 := by
  have s1 : roundF32 ((13421773 / 67108864 : ℚ) - 1 / 2) = -5033165 / 16777216 := by
    rw [roundF32_eq_of_binade _ (-2) (-10066330) (by norm_num)
      (by rw [abs_of_neg (by norm_num)]; norm_num)
      (by rw [abs_of_neg (by norm_num)]; norm_num)
      (Or.inr ⟨by norm_num [abs_of_pos], by norm_num⟩)]
    norm_num
  have s2 : roundF32 ((-5033165 / 16777216 : ℚ) * 1) = -5033165 / 16777216 := by
    rw [mul_one]
    exact roundF32_of_grid _ (-5033165) (-24) (by norm_num) (by norm_num)
      (by rw [abs_of_neg (by norm_num)]; norm_num)
  have s3 : roundF32 ((-5033165 / 16777216 : ℚ) + 1 / 2) = 3355443 / 16777216 := by
    rw [roundF32_of_grid _ 3355443 (-24) (by norm_num) (by norm_num)
      (by rw [abs_of_pos (by norm_num)]; norm_num)]
    norm_num
  have s5 : roundF32 ((13421773 / 67108864 : ℚ) * (1 / 2)) = 13421773 / 134217728 := by
    rw [roundF32_of_grid _ 13421773 (-27) (by norm_num) (by norm_num)
      (by rw [abs_of_pos (by norm_num)]; norm_num)]
    norm_num
  have s6 : roundF32 ((3355443 / 16777216 : ℚ) * (1 / 2)) = 3355443 / 33554432 := by
    rw [roundF32_of_grid _ 3355443 (-25) (by norm_num) (by norm_num)
      (by rw [abs_of_pos (by norm_num)]; norm_num)]
    norm_num
  have s7 : roundF32 ((13421773 / 134217728 : ℚ) + 3355443 / 33554432) = 3355443 / 16777216 := by
    rw [roundF32_eq_of_binade _ (-3) 13421772 (by norm_num)
      (by rw [abs_of_pos (by norm_num)]; norm_num)
      (by rw [abs_of_pos (by norm_num)]; norm_num)
      (Or.inr ⟨by norm_num [abs_of_pos], by norm_num⟩)]
    norm_num
  unfold mixWith contrastTerm texel51
  rw [s1, s2, s3, show (1 : ℚ) - 1 / 2 = 1 / 2 by norm_num, roundF32_one_half, s5, s6, s7]

/-! ## The contrast stage in binary32 -/

/-- Each colour channel of the contrast stage is the rounded `mix` of the
channel with its contrast term. -/
theorem contrastStage_channel (fl : ℚ → ℚ) (k : ℚ) (c : Vec4) (ch : Vec4 → ℚ)
    (hch : ch = Vec4.r ∨ ch = Vec4.g ∨ ch = Vec4.b) :
    ch (contrastStage fl k c) = mixWith fl (ch c) (contrastTerm fl k (ch c)) (1 / 2) := by
  rcases hch with h | h | h <;> subst h <;> rfl

/-- Counterexample to C3: the texel `51/255` is sampled as the binary32 value
`0x1.99999ap-3`, and the contrast stage with `contrast = 1` in binary32 returns
`0x1.999998p-3` on every channel, not the colour it was given. -/
theorem contrastStage_one_texel51 :
    roundF32 (51 / 255) = texel51 ∧ roundF32 texel51 = texel51 ∧
      contrastStage roundF32 1 ⟨texel51, texel51, texel51, 1⟩ =
        ⟨3355443 / 16777216, 3355443 / 16777216, 3355443 / 16777216, 1⟩ ∧
      contrastStage roundF32 1 ⟨texel51, texel51, texel51, 1⟩ ≠
        ⟨texel51, texel51, texel51, 1⟩ := by
  have hv : contrastStage roundF32 1 ⟨texel51, texel51, texel51, 1⟩ =
      ⟨3355443 / 16777216, 3355443 / 16777216, 3355443 / 16777216, 1⟩ := by
    simp only [contrastStage, Vec4.setRgb, Vec4.rgb, contrast_one_texel51]
  refine ⟨roundF32_texel51, ?_, hv, ?_⟩
  · rw [← roundF32_texel51, roundF32_idem]
  · rw [hv]
    intro h
    have h' := congrArg Vec4.r h
    norm_num [texel51] at h'

/-- C3, amended: in binary32 arithmetic, for a colour `c` and any colour channel
`ch` of it (red, green or blue) that holds a binary32 value: alpha is kept for
every contrast; with `contrast = 1` a channel in `[0.25, 1]` is returned
unchanged; for every contrast, when `c` and the computed term
`(c-0.5)*contrast+0.5` are `0` or of magnitude in `[2^-125, 2^128)` (no halving
underflows, nothing overflows), the channel is the binary32 rounding of their
average; with `contrast = 3` a channel in `[0, 1]` is within
`2^-21` of `2c - 0.5` and differs from the computed term `(c-0.5)*3+0.5`
whenever `c ≠ 0.5`. -/
theorem contrastStage_binary32 (c : Vec4) (ch : Vec4 → ℚ)
    (hch : ch = Vec4.r ∨ ch = Vec4.g ∨ ch = Vec4.b) (hfl : roundF32 (ch c) = ch c) :
    (∀ k : ℚ, (contrastStage roundF32 k c).a = c.a) ∧
    (1 / 4 ≤ ch c → ch c ≤ 1 → ch (contrastStage roundF32 1 c) = ch c) ∧
    (∀ k : ℚ, (ch c = 0 ∨ (2 ^ (-125 : ℤ) ≤ |ch c| ∧ |ch c| < 2 ^ (128 : ℤ))) →
      (contrastTerm roundF32 k (ch c) = 0 ∨
        (2 ^ (-125 : ℤ) ≤ |contrastTerm roundF32 k (ch c)| ∧
          |contrastTerm roundF32 k (ch c)| < 2 ^ (128 : ℤ))) →
      ch (contrastStage roundF32 k c) =
        roundF32 ((ch c + contrastTerm roundF32 k (ch c)) / 2)) ∧
    (0 ≤ ch c → ch c ≤ 1 →
      |ch (contrastStage roundF32 3 c) - (2 * ch c - 1 / 2)| ≤ 1 / 2097152 ∧
      (ch c ≠ 1 / 2 → ch (contrastStage roundF32 3 c) ≠ contrastTerm roundF32 3 (ch c))) := by
  refine ⟨fun _ => rfl, ?_, ?_, ?_⟩
  · intro h1 h2
    rw [contrastStage_channel roundF32 1 c ch hch]
    exact contrast_one_channel (ch c) hfl h1 h2
  · intro k hc0 hr0
    rw [contrastStage_channel roundF32 k c ch hch]
    exact mixWith_half_eq (ch c) (contrastTerm roundF32 k (ch c)) hfl (roundF32_idem _)
      (hc0.imp id And.left) (hr0.imp id And.left)
  · intro h0 h1
    rw [contrastStage_channel roundF32 3 c ch hch]
    exact ⟨contrast_three_near (ch c) h0 h1, contrast_three_ne (ch c) hfl h0 h1⟩

/-- Witness of the amended C3 on the red channel of `(0.75, 0.25, 1, 1)`: contrast 1
returns `0.75`, which is the rounded average of `0.75` and the computed term
`0.75`, and contrast 3 returns a value other than the computed term. -/
theorem contrastStage_binary32_witness :
    roundF32 (3 / 4) = 3 / 4 ∧ contrastTerm roundF32 1 (3 / 4) = 3 / 4 ∧
      (contrastStage roundF32 1 ⟨3 / 4, 1 / 4, 1, 1⟩).r = 3 / 4 ∧
      (contrastStage roundF32 1 ⟨3 / 4, 1 / 4, 1, 1⟩).r =
        roundF32 ((3 / 4 + contrastTerm roundF32 1 (3 / 4)) / 2) ∧
      (contrastStage roundF32 3 ⟨3 / 4, 1 / 4, 1, 1⟩).r ≠ contrastTerm roundF32 3 (3 / 4) := by
  have hfl : roundF32 (3 / 4) = 3 / 4 :=
    roundF32_of_grid (3 / 4) 3 (-2) (by norm_num) (by norm_num)
      (by rw [abs_of_pos (by norm_num)]; norm_num)
  have hq : roundF32 (1 / 4) = 1 / 4 :=
    roundF32_of_grid (1 / 4) 1 (-2) (by norm_num) (by norm_num)
      (by rw [abs_of_pos (by norm_num)]; norm_num)
  have ht : contrastTerm roundF32 1 (3 / 4) = 3 / 4 := by
    unfold contrastTerm
    rw [show (3 / 4 : ℚ) - 1 / 2 = 1 / 4 by norm_num, hq, mul_one, hq,
      show (1 / 4 : ℚ) + 1 / 2 = 3 / 4 by norm_num, hfl]
  have h := contrastStage_binary32 ⟨3 / 4, 1 / 4, 1, 1⟩ Vec4.r (Or.inl rfl) hfl
  refine ⟨hfl, ht, h.2.1 (by norm_num) (by norm_num), ?_,
    (h.2.2.2 (by norm_num) (by norm_num)).2 (by norm_num)⟩
  refine h.2.2.1 1 (Or.inr ?_) (Or.inr ?_)
  · rw [abs_of_pos (by norm_num)]
    norm_num
  · rw [ht, abs_of_pos (by norm_num)]
    norm_num

/-! ## The curvature warp -/

/-- C4: for every curvature `> 0` the coordinate `(0.5, 0.5)` is a fixed point of
the warp, the bounds check does not fire there, and `main` returns the value of
the stages after the check. -/
theorem curvedUV_center (k : ℚ) (_hk : 0 < k) :
    curvedUV k ⟨1 / 2, 1 / 2⟩ = ⟨1 / 2, 1 / 2⟩ ∧
      outside (curvedUV k ⟨1 / 2, 1 / 2⟩) = false ∧
      ∀ (env : Env) (u : Uniforms), u.u_Curvature = k →
        main env u ⟨1 / 2, 1 / 2⟩ =
          shadeWithMask env u ⟨1 / 2, 1 / 2⟩ (colMask env u ⟨1 / 2, 1 / 2⟩) := by
  have h1 : curvedUV k ⟨1 / 2, 1 / 2⟩ = ⟨1 / 2, 1 / 2⟩ := by
    simp [curvedUV]
  have h2 : outside (curvedUV k ⟨1 / 2, 1 / 2⟩) = false := by
    rw [h1, outside_eq_false_iff]
    norm_num
  refine ⟨h1, h2, ?_⟩
  intro env u hu
  unfold main mainWithMask
  rw [hu, h2]
  rfl

/-- Witness of C4 at the start-up curvature 4. -/
theorem curvedUV_center_witness :
    (0 : ℚ) < 4 ∧ curvedUV 4 ⟨1 / 2, 1 / 2⟩ = ⟨1 / 2, 1 / 2⟩ :=
  ⟨by norm_num, (curvedUV_center 4 (by norm_num)).1⟩

/-- The displacement of the warp on the x axis, in closed form. -/
theorem curvedUV_x_sub (k : ℚ) (uv : Vec2) :
    (curvedUV k uv).x - uv.x = (uv.x * 2 - 1) * (uv.y * 2 - 1) ^ 2 / (288 * k ^ 2) := by
  simp only [curvedUV, warpDivisor]
  rcases eq_or_ne k 0 with hk | hk
  · subst hk
    simp
    ring
  · field_simp
    ring

/-- The displacement of the warp on the y axis, in closed form. -/
theorem curvedUV_y_sub (k : ℚ) (uv : Vec2) :
    (curvedUV k uv).y - uv.y = (uv.y * 2 - 1) * (uv.x * 2 - 1) ^ 2 / (288 * k ^ 2) := by
  simp only [curvedUV, warpDivisor]
  rcases eq_or_ne k 0 with hk | hk
  · subst hk
    simp
    ring
  · field_simp
    ring

/-- A quotient with a fixed numerator shrinks in absolute value as the curvature grows. -/
theorem abs_div_sq_antitone (A k₁ k₂ : ℚ) (h₁ : 0 < k₁) (h₁₂ : k₁ ≤ k₂) :
    |A / (288 * k₂ ^ 2)| ≤ |A / (288 * k₁ ^ 2)| := by
  have hsq : k₁ ^ 2 ≤ k₂ ^ 2 := pow_le_pow_left₀ h₁.le h₁₂ 2
  have hp₁ : (0 : ℚ) < 288 * k₁ ^ 2 := by positivity
  have hp₂ : (0 : ℚ) < 288 * k₂ ^ 2 := by
    have : 0 < k₂ := lt_of_lt_of_le h₁ h₁₂
    positivity
  rw [abs_div, abs_div, abs_of_pos hp₁, abs_of_pos hp₂]
  exact div_le_div_of_nonneg_left (abs_nonneg A) hp₁ (by linarith)

/-- A quotient with a fixed numerator vanishes as the curvature tends to infinity. -/
theorem tendsto_add_div_sq (a A : ℚ) :
    Filter.Tendsto (fun k : ℚ => a + A / (288 * k ^ 2)) Filter.atTop (nhds a) := by
  have hden : Filter.Tendsto (fun k : ℚ => 288 * k ^ 2) Filter.atTop Filter.atTop :=
    Filter.Tendsto.const_mul_atTop (by norm_num) (Filter.tendsto_pow_atTop (by norm_num))
  have hq : Filter.Tendsto (fun k : ℚ => A / (288 * k ^ 2)) Filter.atTop (nhds 0) :=
    Filter.Tendsto.div_atTop tendsto_const_nhds hden
  simpa using (tendsto_const_nhds (x := a)).add hq

/-- C5: for every `uv` in the unit square and all `0 < k₁ ≤ k₂`, the displacement
`|warp(k₂, uv) - uv|` is at most `|warp(k₁, uv) - uv|` on both axes; and for
every fixed `uv` the warped coordinate converges to `uv` on both axes as the
curvature tends to infinity. -/
theorem curvedUV_distortion_antitone_and_vanishing :
    (∀ (uv : Vec2) (k₁ k₂ : ℚ), 0 ≤ uv.x → uv.x ≤ 1 → 0 ≤ uv.y → uv.y ≤ 1 →
        0 < k₁ → k₁ ≤ k₂ →
        |(curvedUV k₂ uv).x - uv.x| ≤ |(curvedUV k₁ uv).x - uv.x| ∧
        |(curvedUV k₂ uv).y - uv.y| ≤ |(curvedUV k₁ uv).y - uv.y|) ∧
    (∀ uv : Vec2,
        Filter.Tendsto (fun k : ℚ => (curvedUV k uv).x) Filter.atTop (nhds uv.x) ∧
        Filter.Tendsto (fun k : ℚ => (curvedUV k uv).y) Filter.atTop (nhds uv.y)) := by
  constructor
  · intro uv k₁ k₂ _ _ _ _ h₁ h₁₂
    rw [curvedUV_x_sub, curvedUV_x_sub, curvedUV_y_sub, curvedUV_y_sub]
    exact ⟨abs_div_sq_antitone _ k₁ k₂ h₁ h₁₂, abs_div_sq_antitone _ k₁ k₂ h₁ h₁₂⟩
  · intro uv
    have hx : (fun k : ℚ => (curvedUV k uv).x) =
        fun k : ℚ => uv.x + (uv.x * 2 - 1) * (uv.y * 2 - 1) ^ 2 / (288 * k ^ 2) := by
      funext k
      rw [← curvedUV_x_sub]
      ring
    have hy : (fun k : ℚ => (curvedUV k uv).y) =
        fun k : ℚ => uv.y + (uv.y * 2 - 1) * (uv.x * 2 - 1) ^ 2 / (288 * k ^ 2) := by
      funext k
      rw [← curvedUV_y_sub]
      ring
    rw [hx, hy]
    exact ⟨tendsto_add_div_sq _ _, tendsto_add_div_sq _ _⟩

/-- Witness of C5: at the corner `uv = (0,0)` the displacement at curvature 8 is
at most the displacement at curvature 4. -/
theorem curvedUV_distortion_witness :
    |(curvedUV 8 ⟨0, 0⟩).x - 0| ≤ |(curvedUV 4 ⟨0, 0⟩).x - 0| ∧
      (curvedUV 8 ⟨0, 0⟩).x = -1 / 18432 ∧ (curvedUV 4 ⟨0, 0⟩).x = -1 / 4608 :=
  ⟨(curvedUV_distortion_antitone_and_vanishing.1 ⟨0, 0⟩ 4 8 (le_refl _) (by norm_num)
      (le_refl _) (by norm_num) (by norm_num) (by norm_num)).1,
   by norm_num [curvedUV, warpDivisor], by norm_num [curvedUV, warpDivisor]⟩

/-! ## The RGB mask toggle -/

/-- Two consecutive mask channels cannot both have residue `1` modulo `3`. -/
theorem mod_three_succ_ne (z : ℤ) (h₀ : mod (z : ℚ) 3 = 1) : mod ((z : ℚ) + 1) 3 ≠ 1 := by
  intro h₁
  unfold mod floor at h₀ h₁
  have e : (3 : ℚ) * ((⌊((z : ℚ) + 1) / 3⌋ - ⌊(z : ℚ) / 3⌋ : ℤ) : ℚ) = 1 := by
    push_cast
    linarith
  have e' : (3 : ℤ) * (⌊((z : ℚ) + 1) / 3⌋ - ⌊(z : ℚ) / 3⌋) = 1 := by exact_mod_cast e
  omega

/-- The mask vector the shader computes is never `(1,1,1,1)`: alpha `1` forces
`u_RGBMaskSize = 3`, and then red and green cannot both be `1`. -/
theorem colMask_ne_ones (env : Env) (u : Uniforms) (uv : Vec2) :
    colMask env u uv ≠ ⟨1, 1, 1, 1⟩ := by
  intro h
  simp only [colMask, Vec4.mk.injEq] at h
  obtain ⟨hr, hg, _, ha⟩ := h
  have hd : maskDivisor u.u_RGBMaskSize = 2 := by
    rcases eq_or_ne (maskDivisor u.u_RGBMaskSize) 0 with h0 | h0
    · rw [h0] at ha
      norm_num at ha
    · field_simp at ha
      linarith
  have hm : u.u_RGBMaskSize = 3 := by
    unfold maskDivisor at hd
    linarith
  rw [hd, hm] at hr hg
  have hr' : mod (maskPix env u uv) 3 = 1 := by linarith
  have hg' : mod (maskPix env u uv + 1) 3 = 1 := by linarith
  have hz : maskPix env u uv = ((⌊(uv.y * u.u_Resolution.y +
      floor (env.sin (u.u_Time * u.u_ShimmerSpeed))) * u.u_Resolution.x +
      uv.x * u.u_Resolution.x⌋ : ℤ) : ℚ) := rfl
  rw [hz] at hr' hg'
  exact mod_three_succ_ne _ hr' hg'

/-- C6: with `u_EnableRGBMask = false` the four components of the fragment
output equal those of the same stage run with the mask enabled and the mask
vector `(1,1,1,1)`; and the output is the same for every `u_RGBMaskSize`,
`u_ShimmerSpeed` and `u_Time`. -/
theorem main_mask_disabled (env : Env) (u : Uniforms) (uv : Vec2)
    (h : u.u_EnableRGBMask = false) :
    main env u uv = mainWithMask env { u with u_EnableRGBMask := true } uv ⟨1, 1, 1, 1⟩ ∧
      ∀ m s t : ℚ,
        main env { u with u_RGBMaskSize := m, u_ShimmerSpeed := s, u_Time := t } uv =
          main env u uv := by
  constructor
  · simp [main, mainWithMask, shadeWithMask, applyMask, h, sample, contrastStage, contrastTerm, mixWith, bleedStage,
      saturationStage, shadeStage, warmthStage, scanline, vignetteEffect, vignette, scan]
  · intro m s t
    simp [main, mainWithMask, shadeWithMask, applyMask, h, sample, contrastStage, contrastTerm, mixWith, bleedStage,
      saturationStage, shadeStage, warmthStage, scanline, vignetteEffect, vignette, scan]

/-- Witness of C6 at the start-up uniforms, whose mask toggle is off. -/
theorem main_mask_disabled_witness :
    startUniforms.u_EnableRGBMask = false ∧
      main whiteEnv { startUniforms with u_RGBMaskSize := 3, u_ShimmerSpeed := 60, u_Time := 1 }
          ⟨1 / 2, 721 / 1440⟩ =
        main whiteEnv startUniforms ⟨1 / 2, 721 / 1440⟩ :=
  ⟨rfl, (main_mask_disabled whiteEnv startUniforms ⟨1 / 2, 721 / 1440⟩ rfl).2 3 60 1⟩

/-! ## End to end at the start-up parameters -/

/-- C7: with chromatic aberration 0, contrast 1, colour bleed 0, saturation 1,
scanline intensity 0, warmth 1, the mask disabled and a pure white texture, for
every positive resolution, curvature and vignette width: a pixel whose warped
coordinate is outside `[0,1]` on either axis outputs `(0,0,0,0)`, and every
other pixel outputs alpha 1 and three equal colour channels
`smoothstep(0, vw/width, 1-|cx|) * smoothstep(0, vw/height, 1-|cy|) * mod(uv.y*height, 3)`
with `(cx, cy) = curved_uv*2-1`. -/
theorem main_defaults_white (env : Env) (u : Uniforms) (uv : Vec2)
    (_hw : 0 < u.u_Resolution.x) (_hh : 0 < u.u_Resolution.y)
    (_hc : 0 < u.u_Curvature) (_hv : 0 < u.u_VignetteWidth)
    (_hca : u.u_ChromaticAberration = 0) (hcon : u.u_Contrast = 1)
    (hbl : u.u_ColorBleed = 0) (hsat : u.u_Saturation = 1)
    (hsl : u.u_ScanlineIntensity = 0) (hwarm : u.u_Warmth = 1)
    (hm : u.u_EnableRGBMask = false)
    (htex : ∀ p : Vec2, (env.texture p).r = 1 ∧ (env.texture p).g = 1 ∧ (env.texture p).b = 1) :
    (((curvedUV u.u_Curvature uv).x < 0 ∨ (curvedUV u.u_Curvature uv).x > 1 ∨
        (curvedUV u.u_Curvature uv).y < 0 ∨ (curvedUV u.u_Curvature uv).y > 1) →
      main env u uv = ⟨0, 0, 0, 0⟩) ∧
    (((0 ≤ (curvedUV u.u_Curvature uv).x ∧ (curvedUV u.u_Curvature uv).x ≤ 1) ∧
        (0 ≤ (curvedUV u.u_Curvature uv).y ∧ (curvedUV u.u_Curvature uv).y ≤ 1)) →
      main env u uv =
        ⟨smoothstep 0 (u.u_VignetteWidth / u.u_Resolution.x)
              (1 - |(curvedUV u.u_Curvature uv).x * 2 - 1|) *
            smoothstep 0 (u.u_VignetteWidth / u.u_Resolution.y)
              (1 - |(curvedUV u.u_Curvature uv).y * 2 - 1|) *
            mod (uv.y * u.u_Resolution.y) 3,
         smoothstep 0 (u.u_VignetteWidth / u.u_Resolution.x)
              (1 - |(curvedUV u.u_Curvature uv).x * 2 - 1|) *
            smoothstep 0 (u.u_VignetteWidth / u.u_Resolution.y)
              (1 - |(curvedUV u.u_Curvature uv).y * 2 - 1|) *
            mod (uv.y * u.u_Resolution.y) 3,
         smoothstep 0 (u.u_VignetteWidth / u.u_Resolution.x)
              (1 - |(curvedUV u.u_Curvature uv).x * 2 - 1|) *
            smoothstep 0 (u.u_VignetteWidth / u.u_Resolution.y)
              (1 - |(curvedUV u.u_Curvature uv).y * 2 - 1|) *
            mod (uv.y * u.u_Resolution.y) 3,
         1⟩) := by
  constructor
  · intro h
    have ho := (outside_eq_true_iff _).mpr h
    simp [main, mainWithMask, ho, vec4]
  · intro h
    have ho := (outside_eq_false_iff _).mpr h
    unfold main mainWithMask
    rw [ho]
    simp only [Bool.false_eq_true, if_false, shadeWithMask, applyMask, hm, sample,
      (htex _).1, (htex _).2.1, (htex _).2.2, contrastStage, contrastTerm, mixWith, id, hcon,
      bleedStage, hbl,
      saturationStage, hsat, shadeStage, scanline, hsl, warmthStage, hwarm, vignetteEffect,
      vignette, scan, Vec4.setRgb, Vec4.rgb, mix3, mix, vec3, dot, lumaWeights, Vec4.mk.injEq]
    refine ⟨?_, ?_, ?_, trivial⟩ <;> norm_num

/-- Witness of C7: 1280x720, curvature 4, vignette width 2, time 0, white
texture, at `uv = (1/2, 721/1440)` (row 360 of 720): the pixel is inside the
curved screen, both falloffs are 1, the banding term is `mod(360.5, 3) = 0.5`. -/
theorem main_defaults_white_witness :
    main whiteEnv startUniforms ⟨1 / 2, 721 / 1440⟩ = ⟨1 / 2, 1 / 2, 1 / 2, 1⟩ := by
  have hcu : curvedUV startUniforms.u_Curvature ⟨1 / 2, 721 / 1440⟩ = ⟨1 / 2, 721 / 1440⟩ := by
    norm_num [curvedUV, warpDivisor, startUniforms, UpdateShaderUniforms, initialParameters]
  have h := (main_defaults_white whiteEnv startUniforms ⟨1 / 2, 721 / 1440⟩
    (by norm_num [startUniforms, UpdateShaderUniforms])
    (by norm_num [startUniforms, UpdateShaderUniforms])
    (by norm_num [startUniforms, UpdateShaderUniforms, initialParameters])
    (by norm_num [startUniforms, UpdateShaderUniforms, initialParameters])
    rfl rfl rfl rfl rfl rfl rfl (fun _ => ⟨rfl, rfl, rfl⟩)).2
    (by rw [hcu]; norm_num)
  rw [h, hcu]
  have hfl : floor (721 / 2 / 3) = (120 : ℤ) :=
    floor_eq_of_le_of_lt _ 120 (by norm_num) (by norm_num)
  have hmod : mod (721 / 2) 3 = 1 / 2 := by
    unfold mod
    rw [hfl]
    norm_num
  have hs1 : smoothstep 0 (1 / 640) 1 = 1 := by
    norm_num [smoothstep, clamp]
  have habs : |(1 / 720 : ℚ)| = 1 / 720 := abs_of_nonneg (by norm_num)
  have hs2 : smoothstep 0 (1 / 360) (719 / 720) = 1 := by
    norm_num [smoothstep, clamp]
  simp only [startUniforms, UpdateShaderUniforms, initialParameters]
  norm_num [hmod, hs1, habs, hs2]

/-! ## Shader initialisation diagnostics -/

/-- A diagnostic is printed exactly when the vertex shader fails to compile,
whatever the fragment compile and the link did. -/
theorem InitializeShaderSystem_ne_nil_iff (gl : ShaderBuild) :
    InitializeShaderSystem gl ≠ [] ↔ gl.vertexCompileStatus = false := by
  unfold InitializeShaderSystem
  cases gl.vertexCompileStatus <;> simp

/-- C8, evaluated where it fails: the fragment compile and the link both fail,
and `InitializeShaderSystem` prints nothing. -/
theorem InitializeShaderSystem_fragmentFailure :
    fragmentFailure.fragmentCompileStatus = false ∧ fragmentFailure.linkStatus = false ∧
      InitializeShaderSystem fragmentFailure = [] :=
  ⟨rfl, rfl, rfl⟩

/-! ## Reset to defaults -/

/-- The ten slider values are restored to their start-up values from every
prior state, and the action is idempotent. -/
theorem resetToDefaults_sliders (p : EffectParameters) :
    resetToDefaults p =
        { initialParameters with
          currentTime := p.currentTime, enableRGBMask := p.enableRGBMask } ∧
      resetToDefaults (resetToDefaults p) = resetToDefaults p :=
  ⟨rfl, rfl⟩

/-- C9, evaluated where it fails: from a state with the mask toggle on, the reset
leaves `enableRGBMask = true`, while its start-up value is `false`. -/
theorem resetToDefaults_keeps_enableRGBMask :
    (resetToDefaults maskTicked).enableRGBMask = true ∧
      initialParameters.enableRGBMask = false ∧
      resetToDefaults maskTicked ≠ resetToDefaults initialParameters := by
  refine ⟨rfl, rfl, ?_⟩
  intro h
  have h' := congrArg EffectParameters.enableRGBMask h
  simp [resetToDefaults, maskTicked, initialParameters] at h'

/-! ## Divisors -/

/-- Counterexample to C10: the slider minima are inside the slider ranges, and in
a 1280x720 window the warp divisor is `0`, the mask divisor is `0`, and the
smoothstep edge width is not positive on either axis. -/
theorem divisors_zero_at_sliderMinima :
    inSliderRanges sliderMinima ∧
      warpDivisor (UpdateShaderUniforms sliderMinima 1280 720).2.u_Curvature = 0 ∧
      maskDivisor (UpdateShaderUniforms sliderMinima 1280 720).2.u_RGBMaskSize = 0 ∧
      ¬ 0 < (vignette (UpdateShaderUniforms sliderMinima 1280 720).2).x ∧
      ¬ 0 < (vignette (UpdateShaderUniforms sliderMinima 1280 720).2).y := by
  refine ⟨?_, ?_, ?_, ?_, ?_⟩
  · norm_num [inSliderRanges, sliderMinima, initialParameters]
  · norm_num [warpDivisor, UpdateShaderUniforms, sliderMinima]
  · norm_num [maskDivisor, UpdateShaderUniforms, sliderMinima]
  · norm_num [vignette, UpdateShaderUniforms, sliderMinima]
  · norm_num [vignette, UpdateShaderUniforms, sliderMinima]

/-- C10, amended: for parameters inside the slider ranges with curvature `> 0`,
mask size `> 1` and vignette width `> 0`, and a window of positive width and
height, `u_Curvature * 12`, `u_RGBMaskSize - 1` and `u_RGBMaskSize` are non-zero
and the smoothstep edge width `u_VignetteWidth / u_Resolution` is positive on
both axes. -/
theorem divisors_nonzero (p : EffectParameters) (width height : ℤ)
    (_hr : inSliderRanges p) (hc : 0 < p.curvatureValue) (hm : 1 < p.rgbMaskSize)
    (hv : 0 < p.vignetteWidthValue) (hw : 0 < width) (hh : 0 < height) :
    warpDivisor (UpdateShaderUniforms p width height).2.u_Curvature ≠ 0 ∧
      maskDivisor (UpdateShaderUniforms p width height).2.u_RGBMaskSize ≠ 0 ∧
      (UpdateShaderUniforms p width height).2.u_RGBMaskSize ≠ 0 ∧
      0 < (vignette (UpdateShaderUniforms p width height).2).x ∧
      0 < (vignette (UpdateShaderUniforms p width height).2).y := by
  have hw' : (0 : ℚ) < width := by exact_mod_cast hw
  have hh' : (0 : ℚ) < height := by exact_mod_cast hh
  simp only [warpDivisor, maskDivisor, vignette, UpdateShaderUniforms]
  refine ⟨?_, ?_, ?_, ?_, ?_⟩
  · exact (mul_pos hc (by norm_num)).ne.symm
  · exact (sub_pos.mpr hm).ne.symm
  · exact (lt_trans one_pos hm).ne.symm
  · exact div_pos hv hw'
  · exact div_pos hv hh'

/-- Witness of the amended C10 at the start-up parameters in a 1280x720 window. -/
theorem divisors_nonzero_witness :
    inSliderRanges initialParameters ∧
      warpDivisor (UpdateShaderUniforms initialParameters 1280 720).2.u_Curvature = 48 ∧
      maskDivisor (UpdateShaderUniforms initialParameters 1280 720).2.u_RGBMaskSize ≠ 0 :=
  ⟨by norm_num [inSliderRanges, initialParameters],
   by norm_num [warpDivisor, UpdateShaderUniforms, initialParameters],
   (divisors_nonzero initialParameters 1280 720
      (by norm_num [inSliderRanges, initialParameters])
      (by norm_num [initialParameters]) (by norm_num [initialParameters])
      (by norm_num [initialParameters]) (by norm_num) (by norm_num)).2.1⟩

end CRT
